import Mathlib

/-!
Shallow embedding of `sol-acc` (src/main.rs), a CLI tool that fetches
Solana program accounts over RPC, optionally filters them server-side,
optionally decodes them with a named decoder, and emits a JSON report.

Bytes are modelled as `Fin 256`; Rust strings as Lean `String`
(char-for-char); `serde_json::Value` as the inductive `Json`;
fallible Rust functions returning `anyhow::Result` as `Except String`.
External library calls (zstd payload codec, `AddressLookupTable::deserialize`)
are parameters of the model; everything else is translated from the source.
-/

abbrev Byte := Fin 256

def mkByte (n : Nat) : Byte := ⟨n % 256, Nat.mod_lt n (by omega)⟩

deriving instance DecidableEq for Except

/-- Model of `serde_json::Value` restricted to the shapes the program emits. -/
inductive Json where
  | str : String → Json
  | num : Nat → Json
  | arr : List Json → Json
  | obj : List (String × Json) → Json

/-- Lowercase hex digit, as produced by the `hex` crate's `encode`. -/
def hexDigit (n : Nat) : Char :=
  if n < 10 then Char.ofNat (48 + n) else Char.ofNat (87 + n)

/-- `hex::encode`: each byte becomes two lowercase hex digits, high nibble first. -/
def hexEncodeChars (bs : List Byte) : List Char :=
  bs.flatMap (fun b => [hexDigit (b.val / 16), hexDigit (b.val % 16)])

def hexEncode (bs : List Byte) : String := ⟨hexEncodeChars bs⟩

/-- Value of a hex digit char, accepting both cases, as the `hex` crate does. -/
def hexDigitVal (c : Char) : Option Nat :=
  if Char.ofNat 48 ≤ c ∧ c ≤ Char.ofNat 57 then some (c.toNat - 48)
  else if Char.ofNat 97 ≤ c ∧ c ≤ Char.ofNat 102 then some (c.toNat - 87)
  else if Char.ofNat 65 ≤ c ∧ c ≤ Char.ofNat 70 then some (c.toNat - 55)
  else none

/-- `hex::decode`: even-length strings of hex digits; pairs to bytes. -/
def hexDecodeChars : List Char → Option (List Byte)
  | [] => some []
  | c1 :: c2 :: rest =>
    match hexDigitVal c1, hexDigitVal c2, hexDecodeChars rest with
    | some h, some l, some bs => some (mkByte (h * 16 + l) :: bs)
    | _, _, _ => none
  | [_] => none

def hexDecode (s : String) : Option (List Byte) := hexDecodeChars s.data

/-- Standard base64 alphabet character for a 6-bit value. -/
def b64Char (n : Nat) : Char :=
  if n < 26 then Char.ofNat (65 + n)
  else if n < 52 then Char.ofNat (97 + (n - 26))
  else if n < 62 then Char.ofNat (48 + (n - 52))
  else if n = 62 then Char.ofNat 43
  else Char.ofNat 47

/-- `base64ct::Base64::encode_string`: standard alphabet with `=` padding. -/
def base64EncodeChars : List Byte → List Char
  | [] => []
  | [b1] =>
    [b64Char (b1.val / 4), b64Char (b1.val % 4 * 16), Char.ofNat 61, Char.ofNat 61]
  | [b1, b2] =>
    [b64Char (b1.val / 4), b64Char (b1.val % 4 * 16 + b2.val / 16),
     b64Char (b2.val % 16 * 4), Char.ofNat 61]
  | b1 :: b2 :: b3 :: rest =>
    b64Char (b1.val / 4) :: b64Char (b1.val % 4 * 16 + b2.val / 16) ::
    b64Char (b2.val % 16 * 4 + b3.val / 64) :: b64Char (b3.val % 64) ::
    base64EncodeChars rest

def base64Encode (bs : List Byte) : String := ⟨base64EncodeChars bs⟩

/-- 6-bit value of a standard base64 alphabet character. -/
def b64Val (c : Char) : Option Nat :=
  if Char.ofNat 65 ≤ c ∧ c ≤ Char.ofNat 90 then some (c.toNat - 65)
  else if Char.ofNat 97 ≤ c ∧ c ≤ Char.ofNat 122 then some (c.toNat - 97 + 26)
  else if Char.ofNat 48 ≤ c ∧ c ≤ Char.ofNat 57 then some (c.toNat - 48 + 52)
  else if c = Char.ofNat 43 then some 62
  else if c = Char.ofNat 47 then some 63
  else none

/-- Strict standard base64 decoder (groups of four, `=` padding at the end). -/
def base64DecodeChars : List Char → Option (List Byte)
  | [] => some []
  | c1 :: c2 :: c3 :: c4 :: rest =>
    match b64Val c1, b64Val c2 with
    | some v1, some v2 =>
      if c3 = Char.ofNat 61 then
        if c4 = Char.ofNat 61 ∧ rest = [] ∧ v2 % 16 = 0 then
          some [mkByte (v1 * 4 + v2 / 16)]
        else none
      else
        match b64Val c3 with
        | some v3 =>
          if c4 = Char.ofNat 61 then
            if rest = [] ∧ v3 % 4 = 0 then
              some [mkByte (v1 * 4 + v2 / 16), mkByte (v2 % 16 * 16 + v3 / 4)]
            else none
          else
            match b64Val c4, base64DecodeChars rest with
            | some v4, some tail =>
              some (mkByte (v1 * 4 + v2 / 16) :: mkByte (v2 % 16 * 16 + v3 / 4) ::
                    mkByte (v3 % 4 * 64 + v4) :: tail)
            | _, _ => none
        | none => none
    | _, _ => none
  | _ => none

def base64Decode (s : String) : Option (List Byte) := base64DecodeChars s.data

/-- Base58 alphabet used by `bs58`/`solana_pubkey`. -/
def base58Alphabet : List Char :=
  "123456789ABCDEFGHJKLMNPQRSTUVWXYZabcdefghijkmnopqrstuvwxyz".data

def b58Digit (n : Nat) : Char := (base58Alphabet.get? n).getD (Char.ofNat 49)

def b58Val (c : Char) : Option Nat := base58Alphabet.findIdx? (fun d => d == c)

def natToB58Aux : Nat → Nat → List Char
  | 0, _ => []
  | _, 0 => []
  | fuel + 1, n + 1 => natToB58Aux fuel ((n + 1) / 58) ++ [b58Digit ((n + 1) % 58)]

/-- Minimal base-58 digit string of a number (empty for 0); the fuel argument
    only bounds the recursion and never runs out. -/
def natToB58 (n : Nat) : List Char := natToB58Aux n n

def bytesToNatBE (bs : List Byte) : Nat := bs.foldl (fun a b => a * 256 + b.val) 0

def natToBytesBEAux : Nat → Nat → List Byte
  | 0, _ => []
  | _, 0 => []
  | fuel + 1, n + 1 => natToBytesBEAux fuel ((n + 1) / 256) ++ [mkByte ((n + 1) % 256)]

/-- Minimal big-endian byte string of a number (empty for 0). -/
def natToBytesBE (n : Nat) : List Byte := natToBytesBEAux n n

/-- Base58 rendering of a byte string (`bs58`): one `1` per leading zero byte,
    then the base-58 digits of the value. -/
def base58Encode (bs : List Byte) : String :=
  ⟨List.replicate (bs.takeWhile (fun b => b == mkByte 0)).length (Char.ofNat 49) ++
    natToB58 (bytesToNatBE bs)⟩

abbrev Pubkey := List Byte

/-- `Pubkey::from_str` (external `solana_pubkey` contract): length guard,
    base58 decode, 32-byte check. Error strings are `ParsePubkeyError`'s. -/
def Pubkey.fromStr (s : String) : Except String Pubkey :=
  if s.length > 44 then Except.error ("String is the wrong size")
  else
    match s.data.foldlM (fun a c => (b58Val c).map (fun v => a * 58 + v)) 0 with
    | none => Except.error ("Invalid Base58 string")
    | some n =>
      let bytes := List.replicate (s.data.takeWhile (fun c => c == Char.ofNat 49)).length
        (mkByte 0) ++ natToBytesBE n
      if bytes.length = 32 then Except.ok bytes else Except.error ("String is the wrong size")

/-- Rust `str::split(sep)`: splits on every occurrence of the separator; the
    result always has one more element than there are separators. -/
def splitOnChar (sep : Char) : List Char → List (List Char)
  | [] => [[]]
  | c :: rest =>
    match splitOnChar sep rest with
    | h :: t => if c = sep then [] :: h :: t else (c :: h) :: t
    | [] => [[c]]

/-- Rust `usize::from_str`: optional leading `+`, then one or more decimal
    digits. (Overflow is not modelled; no claim depends on it.) -/
def parseNat (cs : List Char) : Except String Nat :=
  if cs = [] then Except.error ("cannot parse integer from empty string")
  else
    let ds := match cs with
      | c :: rest => if c = Char.ofNat 43 then rest else c :: rest
      | [] => []
    if ds = [] then Except.error ("invalid digit found in string")
    else
      match ds.foldlM (fun a c => if c.isDigit then some (a * 10 + (c.toNat - 48)) else none) 0 with
      | some n => Except.ok n
      | none => Except.error ("invalid digit found in string")

/-- `solana_client::rpc_filter::RpcFilterType`, restricted to the variants used. -/
inductive RpcFilterType where
  | memcmp : Nat → List Byte → RpcFilterType
  | dataSize : Nat → RpcFilterType
deriving DecidableEq

/-- Value part of a filter (src lines 101-107): `0x`-prefixed hex, else base58
    pubkey. The source's `data_str.starts_with("0x")` / `&data_str[2..]` are
    expressed as a match on the two leading characters. -/
def parseFilterValue (cs : List Char) : Except String (List Byte) :=
  match cs with
  | '0' :: 'x' :: rest =>
    match hexDecodeChars rest with
    | some bs => Except.ok bs
    | none => Except.error ("BadHex")
  | _ => Pubkey.fromStr ⟨cs⟩

/-- `parse_filter` (src lines 94-113): split on every `:`, require exactly two
    parts, parse the offset, parse the value, build a memcmp filter. -/
def parse_filter (s : String) : Except String RpcFilterType :=
  let parts := splitOnChar ':' s.data
  if parts.length = 2 then
    match parseNat ((parts.get? 0).getD []) with
    | Except.error e => Except.error e
    | Except.ok offset =>
      match parseFilterValue ((parts.get? 1).getD []) with
      | Except.error e => Except.error e
      | Except.ok bytes => Except.ok (RpcFilterType.memcmp offset bytes)
  else Except.error ("Filter must be offset:data")

/-- Data-slice parsing in `main` (src lines 137-145). -/
def parseDataSlice (data : Option String) : Except String (Option (Nat × Nat)) :=
  match data with
  | none => Except.ok none
  | some range =>
    let parts := splitOnChar ':' range.data
    if parts.length = 2 then
      match parseNat ((parts.get? 0).getD []) with
      | Except.error e => Except.error e
      | Except.ok offset =>
        match parseNat ((parts.get? 1).getD []) with
        | Except.error e => Except.error e
        | Except.ok len => Except.ok (some (offset, len))
    else Except.error ("Data range must be offset:size")

/-- The deserialized Address Lookup Table as consumed by `AltDecoder::decode`:
    only the `addresses` field is read. -/
structure AddressLookupTable where
  addresses : List Pubkey

/-- External `AddressLookupTable::deserialize` (out-of-scope library code per
    the spec); the model takes it as a parameter. -/
abbrev AltDeserialize := List Byte → Except String AddressLookupTable

abbrev Decoder := List Byte → Except String Json

/-- `AltDecoder::decode` (src lines 68-84). -/
def AltDecoder.decode (deser : AltDeserialize) (data : List Byte) : Except String Json :=
  match deser data with
  | Except.error e => Except.error e
  | Except.ok alt =>
    let addresses := alt.addresses.map (fun pk => base58Encode pk)
    Except.ok (Json.obj [(("type"), Json.str ("address_lookup_table")),
      (("addresses"), Json.arr (addresses.map Json.str)),
      (("num_addresses"), Json.num addresses.length)])

/-- `get_decoder` (src lines 86-92); the `Some("alt")` literal pattern is the
    equality test it compiles to. -/
def get_decoder (deser : AltDeserialize) (parser : Option String) :
    Except String (Option Decoder) :=
  match parser with
  | some p =>
    if p = ("alt") then Except.ok (some (AltDecoder.decode deser))
    else Except.error (("Unknown parser: ") ++ p)
  | none => Except.ok none

/-- The fields of `UiAccount` the program reads. `dataPayload` models the result
    of the external `acc.data.decode()` codec call (`none` = undecodable). -/
structure UiAccount where
  lamports : Nat
  owner : String
  dataPayload : Option (List Byte)
deriving DecidableEq

/-- The raw `data` JSON synthesized when no decoder is present (src lines 199-204). -/
def rawView (data : List Byte) : Json :=
  Json.obj [(("type"), Json.str ("raw")), (("hex"), Json.str (hexEncode data)),
    (("base64"), Json.str (base64Encode data)), (("size"), Json.num data.length)]

/-- One element of `results` (src lines 207-212). -/
def mkEntry (pubkey : Pubkey) (acc : UiAccount) (dataValue : Json) : Json :=
  Json.obj [(("pubkey"), Json.str (base58Encode pubkey)),
    (("lamports"), Json.num acc.lamports),
    (("owner"), Json.str acc.owner), (("data"), dataValue)]

/-- The per-account loop (src lines 181-214): returns the accumulated `results`,
    the `Failed to decode` diagnostics in order, and the `processed` counter. -/
def processAccounts (decoder : Option Decoder) :
    List (Pubkey × UiAccount) → List Json × List String × Nat
  | [] => ([], [], 0)
  | (pubkey, acc) :: rest =>
    match decoder with
    | some dec =>
      match acc.dataPayload with
      | none => processAccounts decoder rest
      | some data =>
        match dec data with
        | Except.ok decoded =>
          let r := processAccounts decoder rest
          (mkEntry pubkey acc decoded :: r.1, r.2.1, r.2.2 + 1)
        | Except.error e =>
          let r := processAccounts decoder rest
          (r.1, (("Failed to decode ") ++ base58Encode pubkey ++ (": ") ++ e) :: r.2.1, r.2.2)
    | none =>
      match acc.dataPayload with
      | none => processAccounts decoder rest
      | some data =>
        let r := processAccounts decoder rest
        (mkEntry pubkey acc (rawView data) :: r.1, r.2.1, r.2.2 + 1)

/-- The parts of `RpcProgramAccountsConfig` the program sets (encoding and
    commitment are the constants Base64Zstd / processed, not modelled). -/
structure RpcConfig where
  dataSlice : Option (Nat × Nat)
  filters : Option (List RpcFilterType)
deriving DecidableEq

/-- Observable effects of a run, in order: the RPC request, stderr diagnostics,
    and the final sink write. -/
inductive Event where
  | rpcRequest : RpcConfig → Event
  | diag : String → Event
  | writeFile : String → Json → Event
  | stdout : Json → Event

/-- The size-filter push (src lines 154-156). -/
def sizeFilters : Option Nat → List RpcFilterType
  | some n => [RpcFilterType.dataSize n]
  | none => []

/-- The Sink (src lines 224-229): file write plus `Saved to` diagnostic, or stdout. -/
def sinkEvents (output : Option String) (report : Json) : List Event :=
  match output with
  | some file => [Event.writeFile file report, Event.diag (("Saved to ") ++ file)]
  | none => [Event.stdout report]

/-- The parsed `accs` subcommand arguments (src lines 28-60), post-clap. -/
structure AccsArgs where
  program : String
  url : String
  parser : Option String
  data : Option String
  filter : List String
  size : Option Nat
  output : Option String

/-- The body of `main`'s `Accs` arm (src lines 119-232), as a function of the
    parsed arguments, the external ALT deserializer, and the RPC response
    (the response stands for a successful `get_program_ui_accounts_with_config`
    call; constructing `RpcClient` performs no I/O). Returns the process
    outcome (`ok` report = exit code 0) and the ordered observable effects. -/
def runAccs (deser : AltDeserialize) (args : AccsArgs)
    (rpcResponse : List (Pubkey × UiAccount)) : Except String Json × List Event :=
  match Pubkey.fromStr args.program with
  | Except.error e => (Except.error e, [])
  | Except.ok _ =>
    match parseDataSlice args.data with
    | Except.error e => (Except.error e, [])
    | Except.ok dataSlice =>
      match args.filter.mapM parse_filter with
      | Except.error e => (Except.error e, [])
      | Except.ok fs =>
        let rpcFilters := fs ++ sizeFilters args.size
        let cfg : RpcConfig :=
          { dataSlice := dataSlice,
            filters := if rpcFilters.isEmpty then none else some rpcFilters }
        let ev1 := [Event.rpcRequest cfg,
          Event.diag (("Fetched ") ++ toString rpcResponse.length ++ (" accounts"))]
        match get_decoder deser args.parser with
        | Except.error e => (Except.error e, ev1)
        | Except.ok decoder =>
          let r := processAccounts decoder rpcResponse
          let report := Json.obj [(("program"), Json.str args.program),
            (("count"), Json.num r.2.2), (("accounts"), Json.arr r.1)]
          let ev2 := ev1 ++ r.2.1.map Event.diag ++
            [Event.diag (("Processed: ") ++ toString r.2.2)]
          (Except.ok report, ev2 ++ sinkEvents args.output report)

/-- Program entry for `accs`. The clap layer is modelled from the spec: the
    `conflicts_with` attributes on `--parser`/`--data` (src lines 42, 46) make
    clap reject an invocation supplying both during `Cli::parse`, before the
    `Accs` arm runs, hence before any observable effect. -/
def sol_acc_main (deser : AltDeserialize) (args : AccsArgs)
    (rpcResponse : List (Pubkey × UiAccount)) : Except String Json × List Event :=
  if args.parser.isSome && args.data.isSome then
    (Except.error ("the argument --parser cannot be used with --data"), [])
  else runAccs deser args rpcResponse

/-- Specification-side description of which accounts the loop emits. -/
def emitOf (decoder : Option Decoder) (pa : Pubkey × UiAccount) : Option Json :=
  match pa.2.dataPayload with
  | none => none
  | some data =>
    match decoder with
    | none => some (mkEntry pa.1 pa.2 (rawView data))
    | some dec =>
      match dec data with
      | Except.ok j => some (mkEntry pa.1 pa.2 j)
      | Except.error _ => none

/-- Specification-side description of the `Failed to decode` diagnostics. -/
def diagOf (decoder : Option Decoder) (pa : Pubkey × UiAccount) : Option String :=
  match decoder with
  | none => none
  | some dec =>
    match pa.2.dataPayload with
    | none => none
    | some data =>
      match dec data with
      | Except.ok _ => none
      | Except.error e => some (("Failed to decode ") ++ base58Encode pa.1 ++ (": ") ++ e)

/-- Test fixture: 32 zero bytes (the base58 string of 32 ones). -/
def pkZero : Pubkey := List.replicate 32 (mkByte 0)

/-- Test fixture: an ALT deserializer that rejects the payload `[0x01]` and
    accepts any other payload as a one-entry table. -/
def altDeserTest : AltDeserialize := fun d =>
  if d = [mkByte 1] then Except.error ("bad") else Except.ok ⟨[pkZero]⟩

/-- Test fixture: two fetched accounts; the first payload makes `altDeserTest`
    fail, the second decodes fine. -/
def respTwo : List (Pubkey × UiAccount) :=
  [(pkZero, ⟨5, ("11111111111111111111111111111111"), some [mkByte 1]⟩),
   (pkZero, ⟨7, ("11111111111111111111111111111111"), some []⟩)]

/-- Test fixture: arguments selecting the `alt` decoder. -/
def argsAlt : AccsArgs :=
  { program := ("11111111111111111111111111111111"), url := ("http://localhost"),
    parser := some ("alt"), data := none, filter := [], size := none, output := none }

/-- Test fixture: arguments with an unknown decoder name. -/
def argsBogus : AccsArgs := { argsAlt with parser := some ("bogus") }

/-- Test fixture: arguments supplying both `--parser` and `--data`. -/
def argsConflict : AccsArgs := { argsAlt with data := some ("0:8") }

/-- Test fixture: raw-mode arguments with two filters and a size filter. -/
def argsFilters : AccsArgs := { argsAlt with
  parser := none
  filter := [("10:0xdead"), ("0:11111111111111111111111111111111")]
  size := some 7 }


theorem processAccounts_eq (decoder : Option Decoder) (accounts : List (Pubkey × UiAccount)) :
    processAccounts decoder accounts =
      (accounts.filterMap (emitOf decoder), accounts.filterMap (diagOf decoder),
        (accounts.filterMap (emitOf decoder)).length) := by
  induction accounts with
  | nil => rfl
  | cons pa rest ih =>
    obtain ⟨pk, acc⟩ := pa
    cases decoder with
    | none =>
      cases hpay : acc.dataPayload with
      | none => simp [processAccounts, emitOf, diagOf, hpay, ih, List.filterMap_cons]
      | some data => simp [processAccounts, emitOf, diagOf, hpay, ih, List.filterMap_cons]
    | some dec =>
      cases hpay : acc.dataPayload with
      | none => simp [processAccounts, emitOf, diagOf, hpay, ih, List.filterMap_cons]
      | some data =>
        cases hres : dec data with
        | ok j => simp [processAccounts, emitOf, diagOf, hpay, hres, ih, List.filterMap_cons]
        | error e => simp [processAccounts, emitOf, diagOf, hpay, hres, ih, List.filterMap_cons]

theorem mkByte_val (n : Nat) : (mkByte n).val = n % 256 := rfl

theorem hexDigitVal_hexDigit : ∀ n : Fin 16, hexDigitVal (hexDigit n.val) = some n.val := by
  decide

theorem hexDecode_hexEncode (bs : List Byte) : hexDecodeChars (hexEncodeChars bs) = some bs := by
  induction bs with
  | nil => rfl
  | cons b rest ih =>
    have hb := b.isLt
    have h1 : b.val / 16 < 16 := by omega
    have h2 : b.val % 16 < 16 := by omega
    have e1 : hexDigitVal (hexDigit (b.val / 16)) = some (b.val / 16) :=
      hexDigitVal_hexDigit ⟨_, h1⟩
    have e2 : hexDigitVal (hexDigit (b.val % 16)) = some (b.val % 16) :=
      hexDigitVal_hexDigit ⟨_, h2⟩
    show hexDecodeChars
      (hexDigit (b.val / 16) :: hexDigit (b.val % 16) :: hexEncodeChars rest) = some (b :: rest)
    simp only [hexDecodeChars, e1, e2, ih]
    refine congrArg some (List.cons_eq_cons.mpr ⟨?_, rfl⟩)
    apply Fin.ext
    rw [mkByte_val]
    omega

theorem b64Val_b64Char : ∀ n : Fin 64, b64Val (b64Char n.val) = some n.val := by
  decide

theorem b64Char_ne_pad : ∀ n : Fin 64, b64Char n.val ≠ Char.ofNat 61 := by
  decide

theorem base64Decode_base64Encode :
    ∀ bs : List Byte, base64DecodeChars (base64EncodeChars bs) = some bs
  | [] => rfl
  | [b1] => by
    have hb1 := b1.isLt
    have h1 : b1.val / 4 < 64 := by omega
    have h2 : b1.val % 4 * 16 < 64 := by omega
    have e1 : b64Val (b64Char (b1.val / 4)) = some (b1.val / 4) := b64Val_b64Char ⟨_, h1⟩
    have e2 : b64Val (b64Char (b1.val % 4 * 16)) = some (b1.val % 4 * 16) :=
      b64Val_b64Char ⟨_, h2⟩
    show base64DecodeChars [b64Char (b1.val / 4), b64Char (b1.val % 4 * 16),
      Char.ofNat 61, Char.ofNat 61] = some [b1]
    simp only [base64DecodeChars, e1, e2]
    rw [if_pos True.intro,
      if_pos (show True ∧ True ∧ b1.val % 4 * 16 % 16 = 0 from ⟨True.intro, True.intro, by omega⟩)]
    refine congrArg some (List.cons_eq_cons.mpr ⟨?_, rfl⟩)
    apply Fin.ext
    rw [mkByte_val]
    omega
  | [b1, b2] => by
    have hb1 := b1.isLt
    have hb2 := b2.isLt
    have h1 : b1.val / 4 < 64 := by omega
    have h2 : b1.val % 4 * 16 + b2.val / 16 < 64 := by omega
    have h3 : b2.val % 16 * 4 < 64 := by omega
    have e1 : b64Val (b64Char (b1.val / 4)) = some (b1.val / 4) := b64Val_b64Char ⟨_, h1⟩
    have e2 : b64Val (b64Char (b1.val % 4 * 16 + b2.val / 16)) =
        some (b1.val % 4 * 16 + b2.val / 16) := b64Val_b64Char ⟨_, h2⟩
    have e3 : b64Val (b64Char (b2.val % 16 * 4)) = some (b2.val % 16 * 4) :=
      b64Val_b64Char ⟨_, h3⟩
    have n3 : b64Char (b2.val % 16 * 4) ≠ Char.ofNat 61 := b64Char_ne_pad ⟨_, h3⟩
    show base64DecodeChars [b64Char (b1.val / 4), b64Char (b1.val % 4 * 16 + b2.val / 16),
      b64Char (b2.val % 16 * 4), Char.ofNat 61] = some [b1, b2]
    simp only [base64DecodeChars, e1, e2, e3]
    rw [if_neg n3, if_pos True.intro,
      if_pos (show True ∧ b2.val % 16 * 4 % 4 = 0 from ⟨True.intro, by omega⟩)]
    refine congrArg some (List.cons_eq_cons.mpr ⟨?_, List.cons_eq_cons.mpr ⟨?_, rfl⟩⟩)
    · apply Fin.ext
      rw [mkByte_val]
      omega
    · apply Fin.ext
      rw [mkByte_val]
      omega
  | b1 :: b2 :: b3 :: rest => by
    have hb1 := b1.isLt
    have hb2 := b2.isLt
    have hb3 := b3.isLt
    have h1 : b1.val / 4 < 64 := by omega
    have h2 : b1.val % 4 * 16 + b2.val / 16 < 64 := by omega
    have h3 : b2.val % 16 * 4 + b3.val / 64 < 64 := by omega
    have h4 : b3.val % 64 < 64 := by omega
    have e1 : b64Val (b64Char (b1.val / 4)) = some (b1.val / 4) := b64Val_b64Char ⟨_, h1⟩
    have e2 : b64Val (b64Char (b1.val % 4 * 16 + b2.val / 16)) =
        some (b1.val % 4 * 16 + b2.val / 16) := b64Val_b64Char ⟨_, h2⟩
    have e3 : b64Val (b64Char (b2.val % 16 * 4 + b3.val / 64)) =
        some (b2.val % 16 * 4 + b3.val / 64) := b64Val_b64Char ⟨_, h3⟩
    have e4 : b64Val (b64Char (b3.val % 64)) = some (b3.val % 64) := b64Val_b64Char ⟨_, h4⟩
    have n3 : b64Char (b2.val % 16 * 4 + b3.val / 64) ≠ Char.ofNat 61 := b64Char_ne_pad ⟨_, h3⟩
    have n4 : b64Char (b3.val % 64) ≠ Char.ofNat 61 := b64Char_ne_pad ⟨_, h4⟩
    have ih := base64Decode_base64Encode rest
    show base64DecodeChars (b64Char (b1.val / 4) :: b64Char (b1.val % 4 * 16 + b2.val / 16) ::
      b64Char (b2.val % 16 * 4 + b3.val / 64) :: b64Char (b3.val % 64) ::
      base64EncodeChars rest) = some (b1 :: b2 :: b3 :: rest)
    simp only [base64DecodeChars, e1, e2, e3, e4, ih]
    rw [if_neg n3, if_neg n4]
    refine congrArg some (List.cons_eq_cons.mpr ⟨?_, List.cons_eq_cons.mpr ⟨?_,
      List.cons_eq_cons.mpr ⟨?_, rfl⟩⟩⟩)
    · apply Fin.ext
      rw [mkByte_val]
      omega
    · apply Fin.ext
      rw [mkByte_val]
      omega
    · apply Fin.ext
      rw [mkByte_val]
      omega

theorem hexDecodeChars_some_nil (cs : List Char) (h : hexDecodeChars cs = some []) :
    cs = [] := by
  match cs with
  | [] => rfl
  | [c] => simp [hexDecodeChars] at h
  | c1 :: c2 :: rest =>
    simp only [hexDecodeChars] at h
    rcases h1 : hexDigitVal c1 with _ | v1 <;> rcases h2 : hexDigitVal c2 with _ | v2 <;>
      rcases h3 : hexDecodeChars rest with _ | bs <;> simp [h1, h2, h3] at h

theorem fromStr_ok_length (s : String) (bs : Pubkey) (h : Pubkey.fromStr s = Except.ok bs) :
    bs.length = 32 := by
  simp only [Pubkey.fromStr] at h
  split at h
  · exact absurd h (by simp)
  · split at h
    · exact absurd h (by simp)
    · split at h
      · rename_i hlen
        obtain rfl : _ = bs := by injection h
        exact hlen
      · exact absurd h (by simp)

theorem parseNat_error_msg (cs : List Char) (e : String) (h : parseNat cs = Except.error e) :
    e = ("cannot parse integer from empty string") ∨ e = ("invalid digit found in string") := by
  simp only [parseNat] at h
  split at h
  · injection h with h2
    exact Or.inl h2.symm
  · split at h
    · injection h with h2
      exact Or.inr h2.symm
    · split at h
      · exact absurd h (by simp)
      · injection h with h2
        exact Or.inr h2.symm

theorem fromStr_error_msg (s : String) (e : String) (h : Pubkey.fromStr s = Except.error e) :
    e = ("String is the wrong size") ∨ e = ("Invalid Base58 string") := by
  simp only [Pubkey.fromStr] at h
  split at h
  · injection h with h2
    exact Or.inl h2.symm
  · split at h
    · injection h with h2
      exact Or.inr h2.symm
    · split at h
      · exact absurd h (by simp)
      · injection h with h2
        exact Or.inl h2.symm

theorem parseFilterValue_error_msg (cs : List Char) (e : String)
    (h : parseFilterValue cs = Except.error e) :
    e = ("BadHex") ∨ e = ("String is the wrong size") ∨ e = ("Invalid Base58 string") := by
  unfold parseFilterValue at h
  split at h
  · split at h
    · exact absurd h (by simp)
    · injection h with h2
      exact Or.inl h2.symm
  · exact Or.inr (fromStr_error_msg _ _ h)

theorem runAccs_ok_eq (deser : AltDeserialize) (args : AccsArgs)
    (resp : List (Pubkey × UiAccount)) (pk : Pubkey) (ds : Option (Nat × Nat))
    (fs : List RpcFilterType) (decoder : Option Decoder)
    (h1 : Pubkey.fromStr args.program = Except.ok pk)
    (h2 : parseDataSlice args.data = Except.ok ds)
    (h3 : args.filter.mapM parse_filter = Except.ok fs)
    (h4 : get_decoder deser args.parser = Except.ok decoder) :
    runAccs deser args resp =
      (Except.ok (Json.obj [(("program"), Json.str args.program),
        (("count"), Json.num (resp.filterMap (emitOf decoder)).length),
        (("accounts"), Json.arr (resp.filterMap (emitOf decoder)))]),
       Event.rpcRequest ⟨ds, if (fs ++ sizeFilters args.size).isEmpty then none
           else some (fs ++ sizeFilters args.size)⟩ ::
         Event.diag (("Fetched ") ++ toString resp.length ++ (" accounts")) ::
         ((resp.filterMap (diagOf decoder)).map Event.diag ++
          (Event.diag (("Processed: ") ++ toString (resp.filterMap (emitOf decoder)).length) ::
           sinkEvents args.output (Json.obj [(("program"), Json.str args.program),
             (("count"), Json.num (resp.filterMap (emitOf decoder)).length),
             (("accounts"), Json.arr (resp.filterMap (emitOf decoder)))])))) := by
  simp only [runAccs, h1, h2, h3, h4, processAccounts_eq]
  simp only [List.cons_append, List.nil_append, List.append_assoc]

/-- C4: supplying both `--parser` and `--data` on the command line is rejected
with a non-zero exit code before any network I/O: the run fails and its effect
trace is empty, so in particular no RPC request is issued. -/
theorem conflict_rejected_before_network (deser : AltDeserialize) (args : AccsArgs)
    (resp : List (Pubkey × UiAccount)) (p d : String)
    (hp : args.parser = some p) (hd : args.data = some d) :
    (∃ e, (sol_acc_main deser args resp).1 = Except.error e) ∧
    (sol_acc_main deser args resp).2 = [] := by
  unfold sol_acc_main
  rw [hp, hd]
  exact ⟨⟨_, rfl⟩, rfl⟩

/-- C4 witness at the concrete arguments `-t alt -d 0:8`. -/
theorem conflict_rejected_before_network_witness :
    (∃ e, (sol_acc_main altDeserTest argsConflict []).1 = Except.error e) ∧
    (sol_acc_main altDeserTest argsConflict []).2 = [] :=
  conflict_rejected_before_network altDeserTest argsConflict [] ("alt") ("0:8") rfl rfl

/-- C5: when no decoder is resolved, every emitted entry's `data` field is the
raw view of its payload, and for the payload `0x00 0x01 0x02` the raw view is
exactly the object with type `raw`, hex `000102`, base64 `AAEC` and size 3. -/
theorem raw_mode_emits_raw_view (accounts : List (Pubkey × UiAccount)) :
    (processAccounts none accounts).1 = accounts.filterMap
      (fun pa => (pa.2.dataPayload).map (fun d => mkEntry pa.1 pa.2 (rawView d))) ∧
    rawView [mkByte 0, mkByte 1, mkByte 2] =
      Json.obj [(("type"), Json.str ("raw")), (("hex"), Json.str ("000102")),
        (("base64"), Json.str ("AAEC")), (("size"), Json.num 3)] := by
  constructor
  · rw [processAccounts_eq]
    have hfun : emitOf none = fun pa : Pubkey × UiAccount =>
        (pa.2.dataPayload).map (fun d => mkEntry pa.1 pa.2 (rawView d)) := by
      funext pa
      cases h : pa.2.dataPayload with
      | none => simp [emitOf, h]
      | some d => simp [emitOf, h]
    rw [hfun]
  · have hhex : hexEncode [mkByte 0, mkByte 1, mkByte 2] = ("000102") := by decide
    have hb64 : base64Encode [mkByte 0, mkByte 1, mkByte 2] = ("AAEC") := by decide
    unfold rawView
    rw [hhex, hb64]
    rfl

/-- C6: every raw entry carries `hex` and `base64` fields that decode (by the
standard hex and base64 decoders) to the same byte string, the payload, whose
length is the entry's `size` field. -/
theorem raw_hex_base64_roundtrip (data : List Byte) :
    rawView data = Json.obj [(("type"), Json.str ("raw")),
      (("hex"), Json.str (hexEncode data)), (("base64"), Json.str (base64Encode data)),
      (("size"), Json.num data.length)] ∧
    hexDecode (hexEncode data) = some data ∧
    base64Decode (base64Encode data) = some data :=
  ⟨rfl, hexDecode_hexEncode data, base64Decode_base64Encode data⟩

/-- C9 counterexample: the argument `10:a:b` does not proceed to value parsing
with value `a:b`; the code splits on every `:`, sees three parts, and fails
with the `BadFilterSyntax` error. -/
theorem filter_split_cex :
    parse_filter ("10:a:b") = Except.error ("Filter must be offset:data") := by decide

/-- C9 (amended): `parse_filter` splits its argument on every `:` and fails
with `BadFilterSyntax` exactly when the split does not yield two parts. -/
theorem filter_split_exactly_two_parts (s : String) :
    parse_filter s = Except.error ("Filter must be offset:data") ↔
      (splitOnChar ':' s.data).length ≠ 2 := by
  constructor
  · intro h hlen
    simp only [parse_filter] at h
    rw [if_pos hlen] at h
    split at h
    · rename_i e heq
      injection h with h2
      rcases parseNat_error_msg _ _ heq with h3 | h3 <;>
        exact absurd (h2.symm.trans h3) (by decide)
    · split at h
      · rename_i e heq
        injection h with h2
        rcases parseFilterValue_error_msg _ _ heq with h3 | h3 | h3 <;>
          exact absurd (h2.symm.trans h3) (by decide)
      · exact absurd h (by simp)
  · intro hlen
    simp only [parse_filter]
    rw [if_neg hlen]

/-- C8 counterexample: the filter argument `10:0x` compiles successfully to a
memory-compare filter whose pattern is empty, refuting pattern length ≥ 1. -/
theorem filter_pattern_empty_cex :
    parse_filter ("10:0x") = Except.ok (RpcFilterType.memcmp 10 []) ∧
    ¬ 1 ≤ ([] : List Byte).length := by decide

/-- C8 (amended): a compiled memcmp pattern is non-empty unless the value part
of the filter argument is exactly `0x`, whose empty hex remainder decodes to an
empty pattern; in particular base58 values always give 32-byte patterns. -/
theorem filter_pattern_nonempty_unless_bare_0x (s : String) (off : Nat) (bs : List Byte)
    (h : parse_filter s = Except.ok (RpcFilterType.memcmp off bs)) :
    1 ≤ bs.length ∨ ((splitOnChar ':' s.data).get? 1).getD [] = ['0', 'x'] := by
  simp only [parse_filter] at h
  split at h
  · split at h
    · exact absurd h (by simp)
    · split at h
      · exact absurd h (by simp)
      · rename_i bytes heq
        have hbs : bytes = bs := by
          injection h with h2
          injection h2 with ho hb
        rw [hbs] at heq
        rcases Nat.eq_zero_or_pos bs.length with hz | hpos
        · right
          have hnil : bs = [] := List.length_eq_zero.mp hz
          subst hnil
          unfold parseFilterValue at heq
          split at heq
          · rename_i rest hv
            split at heq
            · rename_i bs0 heq2
              injection heq with h3
              subst h3
              rw [hexDecodeChars_some_nil _ heq2] at hv
              rw [hv]
            · exact absurd heq (by simp)
          · have h32 := fromStr_ok_length _ _ heq
            simp at h32
        · exact Or.inl hpos
  · exact absurd h (by simp)

/-- C10: when the `alt` decoder succeeds, the returned object's `num_addresses`
equals the length of its `addresses` array, and the array lists the table's
addresses in order. -/
theorem alt_decode_fields_consistent (deser : AltDeserialize) (data : List Byte) (j : Json)
    (h : AltDecoder.decode deser data = Except.ok j) :
    ∃ alt, deser data = Except.ok alt ∧
      j = Json.obj [(("type"), Json.str ("address_lookup_table")),
        (("addresses"), Json.arr ((alt.addresses.map (fun pk => base58Encode pk)).map Json.str)),
        (("num_addresses"),
          Json.num ((alt.addresses.map (fun pk => base58Encode pk)).map Json.str).length)] := by
  simp only [AltDecoder.decode] at h
  split at h
  · exact absurd h (by simp)
  · rename_i alt heq
    injection h with h2
    exact ⟨alt, heq, by rw [← h2]; simp [List.length_map]⟩

/-- C10 witness at the test deserializer on the empty payload. -/
theorem alt_decode_fields_consistent_witness :
    ∃ alt, altDeserTest [] = Except.ok alt ∧
      Json.obj [(("type"), Json.str ("address_lookup_table")),
        (("addresses"), Json.arr [Json.str (base58Encode pkZero)]),
        (("num_addresses"), Json.num 1)] =
      Json.obj [(("type"), Json.str ("address_lookup_table")),
        (("addresses"), Json.arr ((alt.addresses.map (fun pk => base58Encode pk)).map Json.str)),
        (("num_addresses"),
          Json.num ((alt.addresses.map (fun pk => base58Encode pk)).map Json.str).length)] :=
  alt_decode_fields_consistent altDeserTest []
    (Json.obj [(("type"), Json.str ("address_lookup_table")),
      (("addresses"), Json.arr [Json.str (base58Encode pkZero)]),
      (("num_addresses"), Json.num 1)]) rfl

theorem runAccs_ok_shape (deser : AltDeserialize) (args : AccsArgs)
    (resp : List (Pubkey × UiAccount)) (r : Json)
    (h : (runAccs deser args resp).1 = Except.ok r) :
    ∃ decoder, r = Json.obj [(("program"), Json.str args.program),
      (("count"), Json.num (resp.filterMap (emitOf decoder)).length),
      (("accounts"), Json.arr (resp.filterMap (emitOf decoder)))] := by
  simp only [runAccs] at h
  split at h
  · exact absurd h (by simp)
  · split at h
    · exact absurd h (by simp)
    · split at h
      · exact absurd h (by simp)
      · split at h
        · exact absurd h (by simp)
        · rename_i decoder heq
          refine ⟨decoder, ?_⟩
          simp only [processAccounts_eq] at h
          injection h with h2
          exact h2.symm

/-- C3: every run that produces a report emits a `count` field equal to the
length of the emitted `accounts` array. -/
theorem report_count_eq_accounts_length (deser : AltDeserialize) (args : AccsArgs)
    (resp : List (Pubkey × UiAccount)) (r : Json)
    (h : (sol_acc_main deser args resp).1 = Except.ok r) :
    ∃ p n xs, r = Json.obj [(("program"), Json.str p), (("count"), Json.num n),
      (("accounts"), Json.arr xs)] ∧ n = xs.length := by
  unfold sol_acc_main at h
  split at h
  · exact absurd h (by simp)
  · obtain ⟨decoder, rfl⟩ := runAccs_ok_shape _ _ _ _ h
    exact ⟨args.program, _, _, rfl, rfl⟩

/-- C3 witness at concrete arguments on the empty RPC response. -/
theorem report_count_eq_accounts_length_witness :
    ∃ p n xs, Json.obj [(("program"), Json.str ("11111111111111111111111111111111")),
      (("count"), Json.num 0), (("accounts"), Json.arr [])] =
      Json.obj [(("program"), Json.str p), (("count"), Json.num n),
        (("accounts"), Json.arr xs)] ∧ n = xs.length :=
  report_count_eq_accounts_length altDeserTest argsAlt []
    (Json.obj [(("program"), Json.str ("11111111111111111111111111111111")),
      (("count"), Json.num 0), (("accounts"), Json.arr [])]) rfl

/-- C2 counterexample: with `--parser bogus` (and no `--data`) the run does
fail hard with `Unknown parser`, but only after the network call: the failing
run's trace contains the RPC request, refuting "no RPC request is issued". -/
theorem unknown_decoder_claim_cex :
    (sol_acc_main altDeserTest argsBogus []).1 =
      Except.error (("Unknown parser: ") ++ ("bogus")) ∧
    Event.rpcRequest ⟨none, none⟩ ∈ (sol_acc_main altDeserTest argsBogus []).2 := by
  constructor
  · rfl
  · have ht : (sol_acc_main altDeserTest argsBogus []).2 =
        [Event.rpcRequest ⟨none, none⟩, Event.diag ("Fetched 0 accounts")] := rfl
    rw [ht]
    exact List.mem_cons_self _ _

/-- C2 (amended): a decoder name other than `alt` makes the run fail hard with
`Unknown parser: <name>` and a non-zero exit code, but the decoder is resolved
only after the RPC request: the failing run's trace is exactly the request
followed by the fetch diagnostic. -/
theorem unknown_decoder_fails_after_fetch (deser : AltDeserialize) (args : AccsArgs)
    (resp : List (Pubkey × UiAccount)) (pk : Pubkey) (fs : List RpcFilterType) (p : String)
    (hp : args.parser = some p) (hne : ¬ p = ("alt")) (hd : args.data = none)
    (h1 : Pubkey.fromStr args.program = Except.ok pk)
    (h3 : args.filter.mapM parse_filter = Except.ok fs) :
    (sol_acc_main deser args resp).1 = Except.error (("Unknown parser: ") ++ p) ∧
    (sol_acc_main deser args resp).2 =
      [Event.rpcRequest ⟨none, if (fs ++ sizeFilters args.size).isEmpty then none
          else some (fs ++ sizeFilters args.size)⟩,
       Event.diag (("Fetched ") ++ toString resp.length ++ (" accounts"))] := by
  have hgd : get_decoder deser args.parser = Except.error (("Unknown parser: ") ++ p) := by
    rw [hp]
    simp only [get_decoder]
    rw [if_neg hne]
  simp only [sol_acc_main, hd, Option.isSome_none, Bool.and_false, Bool.false_eq_true,
    if_false]
  simp only [runAccs, hd, h1, h3, hgd, parseDataSlice]
  constructor <;> trivial

/-- C2 witness: the amended statement at the concrete arguments `-t bogus`. -/
theorem unknown_decoder_fails_after_fetch_witness :
    (sol_acc_main altDeserTest argsBogus respTwo).1 =
      Except.error (("Unknown parser: ") ++ ("bogus")) ∧
    (sol_acc_main altDeserTest argsBogus respTwo).2 =
      [Event.rpcRequest ⟨none, if (([] : List RpcFilterType) ++ sizeFilters argsBogus.size).isEmpty
          then none else some (([] : List RpcFilterType) ++ sizeFilters argsBogus.size)⟩,
       Event.diag (("Fetched ") ++ toString respTwo.length ++ (" accounts"))] :=
  unknown_decoder_fails_after_fetch altDeserTest argsBogus respTwo pkZero [] ("bogus")
    rfl (by decide) rfl (by decide) rfl

/-- C7: the outgoing request carries the compiled `--filter` specs in the order
supplied, with the `--size` filter appended last, and the filters field is
omitted (`none`) exactly when both are absent; the request is the first effect
of any run that reaches the network. -/
theorem filters_order_in_request (deser : AltDeserialize) (args : AccsArgs)
    (resp : List (Pubkey × UiAccount)) (pk : Pubkey) (ds : Option (Nat × Nat))
    (fs : List RpcFilterType)
    (hnc : (args.parser.isSome && args.data.isSome) = false)
    (h1 : Pubkey.fromStr args.program = Except.ok pk)
    (h2 : parseDataSlice args.data = Except.ok ds)
    (h3 : args.filter.mapM parse_filter = Except.ok fs) :
    ∃ rest, (sol_acc_main deser args resp).2 =
      Event.rpcRequest ⟨ds, if (fs ++ sizeFilters args.size).isEmpty then none
        else some (fs ++ sizeFilters args.size)⟩ :: rest := by
  simp only [sol_acc_main, hnc, Bool.false_eq_true, if_false]
  cases hgd : get_decoder deser args.parser with
  | error e =>
    simp only [runAccs, h1, h2, h3, hgd]
    exact ⟨_, rfl⟩
  | ok decoder =>
    simp only [runAccs, h1, h2, h3, hgd]
    exact ⟨_, rfl⟩

/-- C7 witness: concrete `-f 10:0xdead -f 0:<Addr58> -s 7` compiles to the two
memcmp filters in order with the size filter appended. -/
theorem filters_order_in_request_witness :
    ∃ rest, (sol_acc_main altDeserTest argsFilters []).2 =
      Event.rpcRequest ⟨none,
        if (([RpcFilterType.memcmp 10 [mkByte 222, mkByte 173],
              RpcFilterType.memcmp 0 pkZero] : List RpcFilterType) ++
            sizeFilters argsFilters.size).isEmpty then none
        else some (([RpcFilterType.memcmp 10 [mkByte 222, mkByte 173],
              RpcFilterType.memcmp 0 pkZero] : List RpcFilterType) ++
            sizeFilters argsFilters.size)⟩ :: rest :=
  filters_order_in_request altDeserTest argsFilters [] pkZero none
    [RpcFilterType.memcmp 10 [mkByte 222, mkByte 173], RpcFilterType.memcmp 0 pkZero]
    rfl (by decide) rfl (by decide)

/-- C1: with a resolved decoder, a per-account decode failure emits the
`Failed to decode <pubkey>: <error>` diagnostic and contributes nothing to the
report, while every other account still flows through: the run ends with exit
code 0 (`Except.ok`) and the report lists exactly the accounts whose payloads
decoded successfully. -/
theorem pipeline_decode_failure_isolated (deser : AltDeserialize) (args : AccsArgs)
    (resp : List (Pubkey × UiAccount)) (pk : Pubkey) (fs : List RpcFilterType) (dec : Decoder)
    (hd : args.data = none)
    (h1 : Pubkey.fromStr args.program = Except.ok pk)
    (h3 : args.filter.mapM parse_filter = Except.ok fs)
    (h4 : get_decoder deser args.parser = Except.ok (some dec)) :
    (sol_acc_main deser args resp).1 =
      Except.ok (Json.obj [(("program"), Json.str args.program),
        (("count"), Json.num (resp.filterMap (emitOf (some dec))).length),
        (("accounts"), Json.arr (resp.filterMap (emitOf (some dec))))]) ∧
    (∀ pkA acc data e, (pkA, acc) ∈ resp → acc.dataPayload = some data →
      dec data = Except.error e →
      Event.diag (("Failed to decode ") ++ base58Encode pkA ++ (": ") ++ e) ∈
        (sol_acc_main deser args resp).2) := by
  have hds : parseDataSlice args.data = Except.ok none := by rw [hd]; rfl
  have hmain : sol_acc_main deser args resp = runAccs deser args resp := by
    unfold sol_acc_main
    rw [hd]
    simp
  rw [hmain, runAccs_ok_eq deser args resp pk none fs (some dec) h1 hds h3 h4]
  constructor
  · rfl
  · intro pkA acc data e hmem hpay herr
    have hdOf : diagOf (some dec) (pkA, acc) =
        some (("Failed to decode ") ++ base58Encode pkA ++ (": ") ++ e) := by
      simp [diagOf, hpay, herr]
    have hin : (("Failed to decode ") ++ base58Encode pkA ++ (": ") ++ e) ∈
        resp.filterMap (diagOf (some dec)) :=
      List.mem_filterMap.mpr ⟨(pkA, acc), hmem, hdOf⟩
    apply List.mem_cons_of_mem
    apply List.mem_cons_of_mem
    exact List.mem_append_left _ (List.mem_map_of_mem _ hin)

/-- C1 witness: with `-t alt` on two accounts of which the first fails to
decode, the run succeeds with a one-entry report and the failure diagnostic is
in the trace. -/
theorem pipeline_decode_failure_isolated_witness :
    (sol_acc_main altDeserTest argsAlt respTwo).1 =
      Except.ok (Json.obj [(("program"), Json.str (argsAlt.program)),
        (("count"),
          Json.num (respTwo.filterMap (emitOf (some (AltDecoder.decode altDeserTest)))).length),
        (("accounts"),
          Json.arr (respTwo.filterMap (emitOf (some (AltDecoder.decode altDeserTest)))))]) ∧
    Event.diag (("Failed to decode ") ++ base58Encode pkZero ++ (": ") ++ ("bad")) ∈
      (sol_acc_main altDeserTest argsAlt respTwo).2 :=
  ⟨(pipeline_decode_failure_isolated altDeserTest argsAlt respTwo pkZero []
      (AltDecoder.decode altDeserTest) rfl (by decide) rfl rfl).1,
   (pipeline_decode_failure_isolated altDeserTest argsAlt respTwo pkZero []
      (AltDecoder.decode altDeserTest) rfl (by decide) rfl rfl).2
     pkZero ⟨5, ("11111111111111111111111111111111"), some [mkByte 1]⟩ [mkByte 1] ("bad")
     (List.mem_cons_self _ _) rfl rfl⟩

/-- C8 witness: the amended statement at the concrete argument `10:0xdead`. -/
theorem filter_pattern_nonempty_unless_bare_0x_witness :
    1 ≤ ([mkByte 222, mkByte 173] : List Byte).length ∨
    ((splitOnChar ':' ("10:0xdead").data).get? 1).getD [] = ['0', 'x'] :=
  filter_pattern_nonempty_unless_bare_0x ("10:0xdead") 10 [mkByte 222, mkByte 173] (by decide)
